import Mathlib

/-!
Verification development for the Tick_data repository: a shallow embedding of
`kite_to_file_producer.py` (bounded write queue, writer loop, tick
normalization) and `nifty_spot_option_tick_recorder.py` (strike rounding,
NFO index construction, CSV recording, subscription band manager), together
with theorems settling the specification's testable properties.
-/

namespace TickData

/-! ## Python value model

Python dictionary values that flow through the two scripts: integers,
floats (modelled as rationals), strings, datetimes and `None`.  A field read
with `dict.get` yields `Option PyVal`; Python truthiness is modelled by
`pyTruthy`. -/

/-- A `pandas`/`datetime` timestamp value, to microsecond resolution. -/
structure PdTimestamp where
  year : Nat
  month : Nat
  day : Nat
  hour : Nat
  minute : Nat
  second : Nat
  micro : Nat
deriving DecidableEq

/-- A Python `datetime.date`. -/
structure PyDate where
  year : Nat
  month : Nat
  day : Nat
deriving DecidableEq

/-- Zero-pad a natural to at least `w` digits, as Python `%02d` etc. -/
def padNat (w : Nat) (n : Nat) : String :=
  let s := toString n
  if s.length < w then String.mk (List.replicate (w - s.length) '0') ++ s else s

/-- Models `date.isoformat()`: `YYYY-MM-DD`. -/
def PyDate.isoformat (d : PyDate) : String :=
  padNat 4 d.year ++ "-" ++ padNat 2 d.month ++ "-" ++ padNat 2 d.day

/-- Models `ts.strftime("%Y-%m-%d %H:%M:%S.%f")`: microsecond-resolution render. -/
def PdTimestamp.strftimeMicro (t : PdTimestamp) : String :=
  padNat 4 t.year ++ "-" ++ padNat 2 t.month ++ "-" ++ padNat 2 t.day ++ " " ++
    padNat 2 t.hour ++ ":" ++ padNat 2 t.minute ++ ":" ++ padNat 2 t.second ++
    "." ++ padNat 6 t.micro

/-- Models `ts.strftime("%Y-%m-%d %H:%M:%S.%f")[:-3]`: drop the last three digits,
leaving millisecond precision, as written by `record_tick`. -/
def PdTimestamp.strftimeMs (t : PdTimestamp) : String :=
  (PdTimestamp.strftimeMicro t).dropRight 3

/-- A Python value as it appears in a tick dictionary. -/
inductive PyVal where
  | pyInt (n : Int)
  | pyFloat (q : Rat)
  | pyStr (s : String)
  | pyTime (t : PdTimestamp)
  | pyNone
deriving DecidableEq

/-- Python truthiness of a `PyVal` (`0`, `0.0`, `""` and `None` are falsy). -/
def pyTruthy : PyVal → Bool
  | .pyInt n => n ≠ 0
  | .pyFloat q => q ≠ 0
  | .pyStr s => s ≠ ""
  | .pyTime _ => true
  | .pyNone => false

/-- Python `str(v)`. -/
def pyStrOf : PyVal → String
  | .pyInt n => toString n
  | .pyFloat q => toString q
  | .pyStr s => s
  | .pyTime t => PdTimestamp.strftimeMicro t
  | .pyNone => "None"

/-- Python `int(v)` truncation toward zero on a rational. -/
def pyIntOfRat (q : Rat) : Int :=
  if 0 ≤ q then ⌊q⌋ else ⌈q⌉

/-- Python `int(v)`: succeeds on ints, floats and integer-literal strings,
raises (modelled as `Except.error`) on everything else. -/
def pyIntConv : PyVal → Except Unit Int
  | .pyInt n => .ok n
  | .pyFloat q => .ok (pyIntOfRat q)
  | .pyStr s => match s.toInt? with
    | some n => .ok n
    | none => .error ()
  | .pyTime _ => .error ()
  | .pyNone => .error ()

/-- A numeric view of a `PyVal`, for arithmetic such as `price / STRIKE_STEP`;
non-numeric values raise a `TypeError` in Python, modelled as `none`. -/
def pyToRat : PyVal → Option Rat
  | .pyInt n => some (n : Rat)
  | .pyFloat q => some q
  | _ => none

/-- Python `round` on a rational: round half to even (banker's rounding). -/
def pyRound (q : Rat) : Int :=
  let f : Int := ⌊q⌋
  let frac : Rat := q - (f : Rat)
  if frac < 1/2 then f
  else if 1/2 < frac then f + 1
  else if f % 2 = 0 then f else f + 1

/-- Tests an `Except` for success. -/
def exceptOk {ε α : Type} : Except ε α → Bool
  | .ok _ => true
  | .error _ => false

/-- First-match lookup in an association list.  Dictionaries are modelled as
association lists in which a later insertion is *prepended*, so the first
match is the most recent binding, matching Python dict overwrite semantics. -/
def lookupFirst {κ ν : Type} [DecidableEq κ] : List (κ × ν) → κ → Option ν
  | [], _ => none
  | (k, v) :: rest, key => if k = key then some v else lookupFirst rest key

/-- Models `t.get(k)` followed by the `if t.get(k):` truthiness test: the value, if
the field is present with a truthy value. -/
def getTruthy (v : Option PyVal) : Option PyVal :=
  match v with
  | some pv => if pyTruthy pv then some pv else none
  | none => none

/-- A raw tick dictionary as delivered by the feed: each field may be absent. -/
structure RawTick where
  instrument_token : Option PyVal
  tradingsymbol : Option PyVal
  last_price : Option PyVal
  timestamp : Option PyVal
  last_trade_time : Option PyVal
  exchange_timestamp : Option PyVal
deriving DecidableEq

/-- The three timestamp fields of a tick, in the fallback order both scripts
iterate them: `("timestamp", "last_trade_time", "exchange_timestamp")`. -/
def tsFields (t : RawTick) : List (Option PyVal) :=
  [t.timestamp, t.last_trade_time, t.exchange_timestamp]

namespace Producer

/-! ## kite_to_file_producer.py -/

/-- Models `collections.deque(maxlen=cap).append`: append on the right; when the
deque already holds `cap` items the leftmost (oldest) item is discarded. -/
def dequeAppend {α : Type} (cap : Nat) (q : List α) (x : α) : List α :=
  if q.length < cap then q ++ [x] else (q ++ [x]).drop (q.length + 1 - cap)

/-- Producer-side shared state: the bounded write queue `_write_queue` and
the `_queue_event` flag. -/
structure PState (α : Type) where
  queue : List α
  event : Bool
deriving DecidableEq

/-- Initial producer state: empty queue, event clear. -/
def pstate0 {α : Type} : PState α := { queue := [], event := false }

/-- Models `enqueue_tick(t)`: under `_queue_lock`, append to the bounded deque and
set the event. -/
def enqueue_tick {α : Type} (cap : Nat) (s : PState α) (t : α) : PState α :=
  { queue := dequeAppend cap s.queue t, event := true }

/-- A sequence of `enqueue_tick` calls. -/
def enqueueAll {α : Type} (cap : Nat) (s : PState α) (xs : List α) : PState α :=
  xs.foldl (enqueue_tick cap) s

/-- The writer loop's drain: `while _write_queue: batch.append(popleft())`. -/
def drainLoop {α : Type} : List α → List α → List α
  | [], batch => batch
  | x :: q, batch => drainLoop q (batch ++ [x])

/-- One drain step of `_writer_loop`: under `_queue_lock`, pop every queued
item into a local batch and clear the event.  Returns the post-drain state
and the batch handed to the file writer. -/
def writer_drain {α : Type} (s : PState α) : PState α × List α :=
  ({ queue := [], event := false }, drainLoop s.queue [])

/-- Outcome of the `open`/`f.write` block of one writer cycle. -/
inductive IOResult where
  | ok
  | ioError
deriving DecidableEq

/-- One full cycle of `_writer_loop`: drain; if the batch is empty, continue
without touching the file; otherwise perform the write.  The source wraps the
`open`/`write` block in no `try`/`except`, so an I/O error propagates out of
the loop (modelled as `Except.error`), terminating the writer thread. -/
def writerCycle {α : Type} (s : PState α) (io : IOResult) :
    Except Unit (PState α × List α) :=
  let (s', batch) := writer_drain s
  if batch.isEmpty then .ok (s', [])
  else
    match io with
    | .ok => .ok (s', batch)
    | .ioError => .error ()

/-- The writer loop run over a schedule: each entry is the list of records
enqueued before that cycle's drain and the outcome of that cycle's file
write.  Returns the final state and the batches successfully written; an
uncaught I/O error aborts the whole loop. -/
def writerLoop {α : Type} (cap : Nat) (s : PState α) :
    List (List α × IOResult) → Except Unit (PState α × List (List α))
  | [] => .ok (s, [])
  | (arrivals, io) :: rest =>
    match writerCycle (enqueueAll cap s arrivals) io with
    | .error e => .error e
    | .ok (s', batch) =>
      match writerLoop cap s' rest with
      | .error e => .error e
      | .ok (s'', batches) => .ok (s'', batch :: batches)

/-- Models `_extract_ts_from_tick(t)`: return `str` of the first truthy field among
`timestamp`, `last_trade_time`, `exchange_timestamp`, else the current UTC
time in ISO form (passed in as `now`). -/
def firstTruthyField : List (Option PyVal) → Option PyVal
  | [] => none
  | v :: rest =>
    match getTruthy v with
    | some pv => some pv
    | none => firstTruthyField rest

/-- The producer's timestamp extraction (`_extract_ts_from_tick`). -/
def extract_ts_from_tick (now : String) (t : RawTick) : String :=
  match firstTruthyField (tsFields t) with
  | some v => pyStrOf v
  | none => now

/-- The normalized record the producer enqueues: the dict literal built in
`on_ticks`. -/
structure QueuedRec where
  instrument_token : Option PyVal
  tradingsymbol : Option PyVal
  last_price : Option PyVal
  timestamp : String
deriving DecidableEq

/-- Build the enqueued dict from a raw tick (`on_ticks` loop body). -/
def normalize_tick (now : String) (t : RawTick) : QueuedRec :=
  { instrument_token := t.instrument_token
    tradingsymbol := t.tradingsymbol
    last_price := t.last_price
    timestamp := extract_ts_from_tick now t }

/-- An element of the batch the feed hands to `on_ticks`.  A well-behaved
feed passes dictionaries; anything else makes the `t.get` calls raise, which
the per-tick `try`/`except` swallows. -/
inductive FeedItem where
  | dict (t : RawTick)
  | malformed
deriving DecidableEq

/-- Models `on_ticks(ws, ticks)` of the producer: for each element, try to build
and enqueue the normalized record; a failure is logged and the element is
dropped, the loop proceeding with the rest of the batch. -/
def on_ticks (cap : Nat) (now : String) (s : PState QueuedRec) :
    List FeedItem → PState QueuedRec
  | [] => s
  | .dict t :: rest => on_ticks cap now (enqueue_tick cap s (normalize_tick now t)) rest
  | .malformed :: rest => on_ticks cap now s rest

end Producer

namespace Recorder

/-! ## nifty_spot_option_tick_recorder.py -/

/-- Models `STRIKE_STEP` configuration constant. -/
def STRIKE_STEP : Int := 50

/-- Models `round_to_strike(price)`: `int(round(price / STRIKE_STEP) * STRIKE_STEP)`;
any exception (missing or non-numeric price) yields `None`. -/
def round_to_strike (price : Option PyVal) : Option Int :=
  match price with
  | some v =>
    match pyToRat v with
    | some q => some (pyRound (q / (STRIKE_STEP : Rat)) * STRIKE_STEP)
    | none => none
  | none => none

/-- The `pd.to_datetime` parse attempt inside `_extract_tick_ts`; pandas is
external, so the parse function is a parameter of the model. -/
def firstParsableTs (pdParse : PyVal → Option PdTimestamp) :
    List (Option PyVal) → Option PdTimestamp
  | [] => none
  | v :: rest =>
    match getTruthy v with
    | some pv =>
      match pdParse pv with
      | some ts => some ts
      | none => firstParsableTs pdParse rest
    | none => firstParsableTs pdParse rest

/-- Models `_extract_tick_ts(t)`: for each timestamp field in order, if present and
truthy try `pd.to_datetime`, swallowing parse errors; fall back to
`pd.Timestamp.now()` (passed in as `now`). -/
def extract_tick_ts (pdParse : PyVal → Option PdTimestamp) (now : PdTimestamp)
    (t : RawTick) : PdTimestamp :=
  match firstParsableTs pdParse (tsFields t) with
  | some ts => ts
  | none => now

/-- The `expiry` field of a catalog instrument: a `datetime`-like object
(which has a `.date()` method), a plain `date`, or some other value whose
string form is parsed. -/
inductive PyExpiry where
  | pydatetime (d : PyDate)
  | pydate (d : PyDate)
  | pyother (s : String)
deriving DecidableEq

/-- One instrument dict from `kite.instruments("NFO")`. -/
structure NfoInstrument where
  instrument_token : Int
  tradingsymbol : Option String
  strike : Option Rat
  option_type : Option String
  expiry : Option PyExpiry
  name : Option String
deriving DecidableEq

/-- The per-token metadata stored in `option_meta_by_token`. -/
structure OptionMeta where
  expiry : PyDate
  strike : Int
  opt_type : String
  tradingsymbol : String
deriving DecidableEq

/-- The key of `_nfo_index_by_key`: `(underlying, strike, opt_type, expiry)`. -/
def OptKey : Type := String × Int × String × PyDate

instance : DecidableEq OptKey := by
  unfold OptKey
  infer_instance

/-- Models `resolve_option(index, ...)`: look up the key and return the token and
tradingsymbol of the instrument found, else `(None, None)`. -/
def resolve_option (index : OptKey → Option NfoInstrument)
    (underlying : String) (strike : Int) (optType : String) (expiry : PyDate) :
    Option (Int × String) :=
  match index (underlying, strike, optType, expiry) with
  | some inst => some (inst.instrument_token, inst.tradingsymbol.getD "")
  | none => none

/-- One row of the tick CSV, as assembled by `record_tick` (the `strike`
cell is an int for enriched option rows and the empty string, modelled as
`none`, otherwise). -/
structure CsvRow where
  timestamp : String
  instrument_token : Int
  tradingsymbol : String
  kind : String
  last_price : Option PyVal
  expiry : String
  strike : Option Int
  option_type : String
deriving DecidableEq

/-- Models `record_tick(ts, instrument_token, tradingsymbol, kind, last_price)`:
for `"OPT"` rows look up `option_meta_by_token` and fill the enrichment
columns (ISO expiry); everything else gets empty enrichment cells. -/
def record_tick (metaMap : List (Int × OptionMeta)) (ts : PdTimestamp)
    (instrument_token : Int) (tradingsymbol : String) (kind : String)
    (last_price : Option PyVal) : CsvRow :=
  let enrich : String × Option Int × String :=
    if kind = "OPT" then
      match lookupFirst metaMap instrument_token with
      | some meta => (meta.expiry.isoformat, some meta.strike, meta.opt_type)
      | none => ("", none, "")
    else ("", none, "")
  { timestamp := ts.strftimeMs
    instrument_token := instrument_token
    tradingsymbol := tradingsymbol
    kind := kind
    last_price := last_price
    expiry := enrich.1
    strike := enrich.2.1
    option_type := enrich.2.2 }

/-- A call made against the feed websocket. -/
inductive WsCall where
  | subscribe (tokens : List Int)
  | set_mode (tokens : List Int)
  | unsubscribe (tokens : List Int)
deriving DecidableEq

/-- Models `subscribe_tokens(ws, tokens)`: filter out already-subscribed tokens; if
any remain, call `ws.subscribe` and `ws.set_mode` on them and add them to
`subscribed_tokens`. -/
def subscribe_tokens (subscribed : Finset Int) (tokens : List Int) :
    Finset Int × List WsCall :=
  let t := tokens.filter (fun x => x ∉ subscribed)
  if t = [] then (subscribed, [])
  else (subscribed ∪ t.toFinset, [.subscribe t, .set_mode t])

/-- Models `unsubscribe_tokens(ws, tokens)`: keep only currently subscribed tokens;
if any remain, call `ws.unsubscribe` on them and discard each from
`subscribed_tokens`. -/
def unsubscribe_tokens (subscribed : Finset Int) (tokens : List Int) :
    Finset Int × List WsCall :=
  let t := tokens.filter (fun x => x ∈ subscribed)
  if t = [] then (subscribed, [])
  else (subscribed \ t.toFinset, [.unsubscribe t])

/-- The recorder's mutable global state touched by the band manager and the
tick handler. -/
structure RecState where
  current_atm_strike : Option Int
  current_option_tokens : Finset Int
  subscribed_tokens : Finset Int
  token_to_sym : List (Int × String)
deriving DecidableEq

/-- Initial recorder band state. -/
def recState0 : RecState :=
  { current_atm_strike := none, current_option_tokens := ∅,
    subscribed_tokens := ∅, token_to_sym := [] }

/-- Models `strikes = (atm, atm-50, atm+50, atm-100, atm+100)` from
`update_option_band`. -/
def bandStrikes (atm : Int) : Finset Int :=
  {atm, atm - 50, atm + 50, atm - 100, atm + 100}

/-- A deterministic stand-in for Python's unspecified set iteration order:
ascending order of the elements. -/
def sortedTokens (s : Finset Int) : List Int :=
  s.sort (fun a b => a ≤ b)

/-- The triple loop of `update_option_band`: resolve every
strike × (CE, PE) × expiry combination, collecting `(token, tradingsymbol)`
pairs for the keys present in the index. -/
def bandResolved (index : OptKey → Option NfoInstrument)
    (expiries : List PyDate) (underlying : String) (atm : Int) :
    List (Int × String) :=
  (sortedTokens (bandStrikes atm)).flatMap fun st =>
    ["CE", "PE"].flatMap fun opt =>
      expiries.flatMap fun exp =>
        match resolve_option index underlying st opt exp with
        | some p => [p]
        | none => []

/-- Models `new_tokens` of `update_option_band`. -/
def newBandTokens (index : OptKey → Option NfoInstrument)
    (expiries : List PyDate) (underlying : String) (atm : Int) : Finset Int :=
  ((bandResolved index expiries underlying atm).map Prod.fst).toFinset

/-- The rebanding branch of `update_option_band`: resolve the band, record
the tradingsymbols, diff against `current_option_tokens` (unsubscribe then
subscribe), and store the new band and reference strike. -/
def applyReband (index : OptKey → Option NfoInstrument) (expiries : List PyDate)
    (s : RecState) (underlying : String) (atm : Int) : RecState × List WsCall :=
  let resolved := bandResolved index expiries underlying atm
  let newTokens := ((resolved.map Prod.fst).toFinset : Finset Int)
  let tts := resolved.foldl (fun m p => (p.1, p.2) :: m) s.token_to_sym
  let u := unsubscribe_tokens s.subscribed_tokens
    (sortedTokens (s.current_option_tokens \ newTokens))
  let b := subscribe_tokens u.1
    (sortedTokens (newTokens \ s.current_option_tokens))
  ({ current_atm_strike := some atm, current_option_tokens := newTokens,
     subscribed_tokens := b.1, token_to_sym := tts }, u.2 ++ b.2)

/-- Models `update_option_band(ws, underlying, spot_ltp)`: compute the rounded
strike; if it equals the stored reference strike return immediately with no
calls; otherwise reband.  When rounding failed (`atm` is `None`) but a
reference strike exists, Python raises a `TypeError` at `atm - 50`, which
propagates to the caller (`Except.error`). -/
def update_option_band (index : OptKey → Option NfoInstrument)
    (expiries : List PyDate) (s : RecState) (underlying : String)
    (spot_ltp : Option PyVal) : Except Unit (RecState × List WsCall) :=
  let atm := round_to_strike spot_ltp
  if atm = s.current_atm_strike then .ok (s, [])
  else
    match atm with
    | none => .error ()
    | some k => .ok (applyReband index expiries s underlying k)

/-- The fixed, index-independent inputs of the recorder's tick handler. -/
structure RecEnv where
  index : OptKey → Option NfoInstrument
  expiries : List PyDate
  metaMap : List (Int × OptionMeta)
  spot_tokens : List Int
  pdParse : PyVal → Option PdTimestamp
  now : PdTimestamp

/-- Models `int(t.get("instrument_token", 0))` from the recorder's `on_ticks`. -/
def tickToken (t : RawTick) : Except Unit Int :=
  pyIntConv (t.instrument_token.getD (.pyInt 0))

/-- The token of a tick when conversion succeeds, else `0`; used only to
state properties about well-formed batches. -/
def tickTokenD (t : RawTick) : Int :=
  match tickToken t with
  | .ok n => n
  | .error _ => 0

/-- Models `on_ticks(ws, ticks)` of the recorder: for each tick, convert the token,
resolve the timestamp and symbol, write one CSV row, and for spot ticks run
the band manager.  There is no `try`/`except` here: an exception from the
token conversion or from `update_option_band` aborts the remainder of the
batch.  Returns the final state, the rows written (in order) and whether the
batch was aborted by an uncaught exception. -/
def rec_on_ticks (env : RecEnv) (s : RecState) :
    List RawTick → RecState × List CsvRow × Bool
  | [] => (s, [], false)
  | t :: rest =>
    match tickToken t with
    | .error _ => (s, [], true)
    | .ok tok =>
      let ts := extract_tick_ts env.pdParse env.now t
      let tsym := (lookupFirst s.token_to_sym tok).getD ""
      let kind := if tok ∈ env.spot_tokens then "SPOT" else "OPT"
      let row := record_tick env.metaMap ts tok tsym kind t.last_price
      if tok ∈ env.spot_tokens then
        match update_option_band env.index env.expiries s "NIFTY" t.last_price with
        | .error _ => (s, [row], true)
        | .ok (s', _) =>
          let r := rec_on_ticks env s' rest
          (r.1, row :: r.2.1, r.2.2)
      else
        let r := rec_on_ticks env s rest
        (r.1, row :: r.2.1, r.2.2)

end Recorder

/-! ## Concrete fixtures

Small concrete inputs used to evaluate the model in witness theorems. -/

/-- A tick whose `instrument_token` is present but `None`: `int(None)`
raises `TypeError`. -/
def badTick : RawTick :=
  { instrument_token := some .pyNone, tradingsymbol := none,
    last_price := none, timestamp := none, last_trade_time := none,
    exchange_timestamp := none }

/-- A well-formed non-spot tick with token `555`. -/
def optTick : RawTick :=
  { instrument_token := some (.pyInt 555), tradingsymbol := none,
    last_price := some (.pyFloat 5), timestamp := none,
    last_trade_time := none, exchange_timestamp := none }

/-- A well-formed spot tick with token `100` and price `17482`. -/
def spotTick : RawTick :=
  { instrument_token := some (.pyInt 100), tradingsymbol := none,
    last_price := some (.pyInt 17482), timestamp := none,
    last_trade_time := none, exchange_timestamp := none }

/-- A fixed timestamp for fixtures. -/
def ts0 : PdTimestamp := ⟨2026, 1, 12, 9, 15, 0, 0⟩

/-- A catalog instrument: the 2026-01-20 NIFTY 17500 CE, token `111`. -/
def inst0 : Recorder.NfoInstrument :=
  { instrument_token := 111, tradingsymbol := some "NIFTY20JAN17500CE",
    strike := some 17500, option_type := some "CE",
    expiry := some (.pydate ⟨2026, 1, 20⟩), name := some "NIFTY" }

/-- An index holding exactly `inst0` under its key. -/
def index0 : Recorder.OptKey → Option Recorder.NfoInstrument := fun key =>
  if key = (("NIFTY", 17500, "CE", ⟨2026, 1, 20⟩) : Recorder.OptKey) then some inst0
  else none

/-- The expiry list for fixtures. -/
def exps0 : List PyDate := [⟨2026, 1, 20⟩]

/-- A recorder environment: empty index and metadata, spot token `100`, a
`pd.to_datetime` that parses only datetime values. -/
def envEmpty : Recorder.RecEnv :=
  { index := fun _ => none, expiries := [], metaMap := [],
    spot_tokens := [100],
    pdParse := fun v => match v with | .pyTime τ => some τ | _ => none,
    now := ts0 }

/-- Field `f` contributes no timestamp during extraction: it is absent,
carries a falsy value, or `pd.to_datetime` fails on it. -/
def tsFieldFails (pdParse : PyVal → Option PdTimestamp) (f : Option PyVal) : Prop :=
  ∀ v, getTruthy f = some v → pdParse v = none

/-- A tick the recorder's `on_ticks` can process without raising: its token
converts with `int(...)`, and if it is a spot tick its price rounds to a
strike (so `update_option_band` cannot hit `atm - 50` with `atm = None`). -/
def wellFormedTick (env : Recorder.RecEnv) (t : RawTick) : Bool :=
  exceptOk (Recorder.tickToken t) &&
    (if Recorder.tickTokenD t ∈ env.spot_tokens then
      (Recorder.round_to_strike t.last_price).isSome
    else true)

end TickData

namespace TickData

namespace Producer

theorem drainLoop_eq (q batch : List α) : drainLoop q batch = batch ++ q := by
  induction q generalizing batch with
  | nil => simp [drainLoop]
  | cons x rest ih => simp [drainLoop, ih]

theorem dequeAppend_length_le {α : Type} (cap : Nat) (q : List α) (x : α)
    (h : q.length ≤ cap) : (dequeAppend cap q x).length ≤ cap := by
  unfold dequeAppend
  by_cases hlt : q.length < cap
  · simp [hlt]
    omega
  · simp [hlt]
    omega

theorem drop_append_drop {α : Type} (d m : Nat) (L rest : List α) (hd : d ≤ L.length) :
    (L.drop d ++ rest).drop m = (L ++ rest).drop (d + m) := by
  rw [← List.drop_append_of_le_length hd, List.drop_drop]

theorem dequeAll_eq {α : Type} (cap : Nat) (xs : List α) :
    ∀ q : List α, q.length ≤ cap →
      xs.foldl (dequeAppend cap) q = (q ++ xs).drop ((q ++ xs).length - cap) := by
  induction xs with
  | nil =>
    intro q hq
    have h0 : q.length - cap = 0 := by omega
    simp [h0]
  | cons x rest ih =>
    intro q hq
    have hstep : dequeAppend cap q x = (q ++ [x]).drop ((q ++ [x]).length - cap) := by
      unfold dequeAppend
      by_cases hlt : q.length < cap
      · have h0 : (q ++ [x]).length - cap = 0 := by
          simp only [List.length_append, List.length_singleton]
          omega
        rw [if_pos hlt, h0, List.drop_zero]
      · rw [if_neg hlt]
        congr 1
        simp
    have hlen : (dequeAppend cap q x).length ≤ cap := dequeAppend_length_le cap q x hq
    have hfold : (x :: rest).foldl (dequeAppend cap) q
        = rest.foldl (dequeAppend cap) (dequeAppend cap q x) := rfl
    have hassoc : q ++ x :: rest = (q ++ [x]) ++ rest := by simp
    rw [hfold, ih _ hlen, hstep, hassoc]
    rw [drop_append_drop _ _ _ _ (Nat.sub_le _ _)]
    congr 1
    simp only [List.length_append, List.length_drop, List.length_singleton]
    omega

theorem enqueueAll_queue {α : Type} (cap : Nat) (xs : List α) :
    (enqueueAll cap (pstate0 : PState α) xs).queue = xs.drop (xs.length - cap) := by
  have h : ∀ (s : PState α) (ys : List α),
      (enqueueAll cap s ys).queue = ys.foldl (dequeAppend cap) s.queue := by
    intro s ys
    induction ys generalizing s with
    | nil => rfl
    | cons y rest ih => simp [enqueueAll, List.foldl, enqueue_tick] at *; exact ih _
  rw [h]
  have := dequeAll_eq cap xs ([] : List α) (by simp)
  simpa using this

end Producer

end TickData

namespace TickData

/-! ## Claim theorems -/

/-- C1: for every sequence of `enqueue_tick` calls the shared write queue
never exceeds the configured capacity; when the queue is at capacity, each
further enqueue evicts exactly the single oldest entry (FIFO), never more
and never fewer; with capacity 3, enqueuing A,B,C,D in order leaves the
queue holding [B,C,D]. -/
theorem queue_bounded_fifo_eviction (cap : Nat) (hcap : 0 < cap) :
    (∀ xs : List String,
      (Producer.enqueueAll cap (Producer.pstate0 : Producer.PState String) xs).queue.length
        ≤ cap) ∧
    (∀ (s : Producer.PState String) (x : String), s.queue.length = cap →
      (Producer.enqueue_tick cap s x).queue = s.queue.drop 1 ++ [x]) ∧
    (Producer.enqueueAll 3 (Producer.pstate0 : Producer.PState String)
      ["A", "B", "C", "D"]).queue = ["B", "C", "D"] := by
  refine ⟨?_, ?_, ?_⟩
  · intro xs
    rw [Producer.enqueueAll_queue]
    simp only [List.length_drop]
    omega
  · intro s x hlen
    have hnlt : ¬ s.queue.length < cap := by omega
    have h1 : s.queue.length + 1 - cap = 1 := by omega
    have hq1 : 1 ≤ s.queue.length := by omega
    simp only [Producer.enqueue_tick, Producer.dequeAppend, if_neg hnlt, h1]
    exact List.drop_append_of_le_length hq1
  · decide

/-- C1 witness: the capacity-3 A,B,C,D scenario, and one eviction step at
capacity. -/
theorem queue_bounded_fifo_eviction_witness :
    (Producer.enqueueAll 3 (Producer.pstate0 : Producer.PState String)
      ["A", "B", "C", "D"]).queue = ["B", "C", "D"] ∧
    (Producer.enqueue_tick 3
      { queue := ["A", "B", "C"], event := true } "D").queue = ["B", "C", "D"] :=
  ⟨(queue_bounded_fifo_eviction 3 (by decide)).2.2,
   (queue_bounded_fifo_eviction 3 (by decide)).2.1
     { queue := ["A", "B", "C"], event := true } "D" (by decide)⟩

/-- C2 counterexample: with capacity 3, enqueue A,B,C,D since the previous
drain; the drained batch is [B,C,D], not the full enqueued sequence
[A,B,C,D] — capacity eviction removes A, so the claim as stated fails. -/
theorem drain_batch_not_all_enqueued :
    ¬ ((Producer.writer_drain
        (Producer.enqueueAll 3 (Producer.pstate0 : Producer.PState String)
          ["A", "B", "C", "D"])).2 = ["A", "B", "C", "D"]) := by
  decide

/-- C2 (amended): after one drain cycle the queue is empty, and the batch
handed to the writer is exactly the suffix of the records enqueued since the
previous drain that survived capacity eviction (the most recent
`min n capacity` records), in original enqueue order; in particular, when at
most `capacity` records were enqueued, the batch is exactly all of them in
order. -/
theorem drain_yields_retained_suffix (cap : Nat) (xs : List String) :
    (Producer.writer_drain
      (Producer.enqueueAll cap (Producer.pstate0 : Producer.PState String) xs)).1.queue
        = [] ∧
    (Producer.writer_drain
      (Producer.enqueueAll cap (Producer.pstate0 : Producer.PState String) xs)).2
        = xs.drop (xs.length - cap) ∧
    (xs.length ≤ cap →
      (Producer.writer_drain
        (Producer.enqueueAll cap (Producer.pstate0 : Producer.PState String) xs)).2
          = xs) := by
  have hbatch : (Producer.writer_drain
      (Producer.enqueueAll cap (Producer.pstate0 : Producer.PState String) xs)).2
        = xs.drop (xs.length - cap) := by
    simp only [Producer.writer_drain, Producer.drainLoop_eq, List.nil_append]
    exact Producer.enqueueAll_queue cap xs
  refine ⟨rfl, hbatch, ?_⟩
  intro hle
  rw [hbatch]
  have h0 : xs.length - cap = 0 := by omega
  simp [h0]

/-- C2 witness: with capacity 3 and three records enqueued, the drain leaves
the queue empty and yields exactly those records in order. -/
theorem drain_yields_retained_suffix_witness :
    (Producer.writer_drain
      (Producer.enqueueAll 3 (Producer.pstate0 : Producer.PState String)
        ["A", "B", "C"])).1.queue = [] ∧
    (Producer.writer_drain
      (Producer.enqueueAll 3 (Producer.pstate0 : Producer.PState String)
        ["A", "B", "C"])).2 = ["A", "B", "C"] :=
  ⟨(drain_yields_retained_suffix 3 ["A", "B", "C"]).1,
   (drain_yields_retained_suffix 3 ["A", "B", "C"]).2.2 (by decide)⟩

/-- C5: the claim fails on the code.  `_writer_loop` wraps the
`open`/`write` block in no `try`/`except`, so a single failed batch write
propagates out of the loop and terminates the writer thread: with record
"A" pending and the write raising, the loop aborts and the following cycle
(record "B", write succeeding) never runs, so later batches are never
flushed. -/
theorem writer_loop_dies_on_io_error :
    Producer.writerLoop 10 (Producer.pstate0 : Producer.PState String)
      [(["A"], .ioError), (["B"], .ok)] = .error () := by
  rfl

end TickData

namespace TickData

/-- C6: the claim fails in the recorder.  The producer's `on_ticks` guards
each record with a per-tick `try`/`except`, so a malformed element is
dropped and the rest of the batch proceeds (second conjunct); but the
recorder's `on_ticks` has no such guard: `int(t.get("instrument_token", 0))`
raising `ValueError` on the first tick aborts the whole batch, and the
following well-formed tick is never recorded (first conjunct: no rows are
written at all). -/
theorem malformed_tick_aborts_recorder_batch :
    Recorder.rec_on_ticks envEmpty Recorder.recState0 [badTick, optTick]
      = (Recorder.recState0, [], true) ∧
    (Producer.on_ticks 10 "T" Producer.pstate0 [.malformed, .dict optTick]).queue
      = [Producer.normalize_tick "T" optTick] :=
  ⟨rfl, rfl⟩

namespace Recorder

theorem subscribe_tokens_fst (S : Finset Int) (l : List Int) :
    (subscribe_tokens S l).1 = S ∪ l.toFinset := by
  simp only [subscribe_tokens]
  split
  next h =>
    have hall : ∀ x ∈ l, x ∈ S := by
      intro x hx
      have hf := List.filter_eq_nil_iff.mp h x hx
      simpa using hf
    ext x
    simp only [Finset.mem_union, List.mem_toFinset]
    exact ⟨fun hx => Or.inl hx, fun hx => hx.elim id (hall x)⟩
  next h =>
    ext x
    simp only [Finset.mem_union, List.mem_toFinset, List.mem_filter,
      decide_eq_true_eq]
    constructor
    · rintro (hx | ⟨hx, _⟩)
      · exact Or.inl hx
      · exact Or.inr hx
    · rintro (hx | hx)
      · exact Or.inl hx
      · by_cases hxS : x ∈ S
        · exact Or.inl hxS
        · exact Or.inr ⟨hx, hxS⟩

theorem unsubscribe_tokens_fst (S : Finset Int) (l : List Int) :
    (unsubscribe_tokens S l).1 = S \ l.toFinset := by
  simp only [unsubscribe_tokens]
  split
  next h =>
    have hall : ∀ x ∈ l, x ∉ S := by
      intro x hx
      have hf := List.filter_eq_nil_iff.mp h x hx
      simpa using hf
    ext x
    simp only [Finset.mem_sdiff, List.mem_toFinset]
    exact ⟨fun hx => ⟨hx, fun hl => hall x hl hx⟩, fun hx => hx.1⟩
  next h =>
    ext x
    simp only [Finset.mem_sdiff, List.mem_toFinset, List.mem_filter,
      decide_eq_true_eq]
    constructor
    · rintro ⟨hxS, hnot⟩
      exact ⟨hxS, fun hl => hnot ⟨hl, hxS⟩⟩
    · rintro ⟨hxS, hnl⟩
      exact ⟨hxS, fun hf => hnl hf.1⟩

theorem sortedTokens_toFinset (S : Finset Int) : (sortedTokens S).toFinset = S :=
  Finset.sort_toFinset _ S

theorem sortedTokens_empty : sortedTokens (∅ : Finset Int) = [] :=
  Finset.sort_empty _

end Recorder

/-- C3: for every current active subscription set A and desired set D,
running `unsubscribe_tokens(A − D)` then `subscribe_tokens(D − A)` leaves
the active set exactly D; and when A = D neither operation issues any feed
call. -/
theorem subscription_diff_reconciles (A D : Finset Int) :
    (Recorder.subscribe_tokens
        (Recorder.unsubscribe_tokens A (Recorder.sortedTokens (A \ D))).1
        (Recorder.sortedTokens (D \ A))).1 = D ∧
    (A = D →
      (Recorder.unsubscribe_tokens A (Recorder.sortedTokens (A \ D))).2 = [] ∧
      (Recorder.subscribe_tokens
          (Recorder.unsubscribe_tokens A (Recorder.sortedTokens (A \ D))).1
          (Recorder.sortedTokens (D \ A))).2 = []) := by
  constructor
  · rw [Recorder.subscribe_tokens_fst, Recorder.unsubscribe_tokens_fst,
      Recorder.sortedTokens_toFinset, Recorder.sortedTokens_toFinset,
      Finset.sdiff_sdiff_self_left]
    ext x
    simp only [Finset.mem_union, Finset.mem_inter, Finset.mem_sdiff]
    tauto
  · rintro rfl
    rw [Finset.sdiff_self, Recorder.sortedTokens_empty]
    constructor
    · simp [Recorder.unsubscribe_tokens]
    · simp [Recorder.subscribe_tokens]

/-- C3 witness: A = D = (1, 2): the final active set is exactly D and no
subscribe or unsubscribe call is issued. -/
theorem subscription_diff_reconciles_witness :
    (Recorder.subscribe_tokens
        (Recorder.unsubscribe_tokens ({1, 2} : Finset Int)
          (Recorder.sortedTokens (({1, 2} : Finset Int) \ {1, 2}))).1
        (Recorder.sortedTokens (({1, 2} : Finset Int) \ ({1, 2} : Finset Int)))).1
      = ({1, 2} : Finset Int) ∧
    (Recorder.unsubscribe_tokens ({1, 2} : Finset Int)
      (Recorder.sortedTokens (({1, 2} : Finset Int) \ {1, 2}))).2 = [] :=
  ⟨(subscription_diff_reconciles {1, 2} {1, 2}).1,
   ((subscription_diff_reconciles {1, 2} {1, 2}).2 rfl).1⟩

namespace Recorder

theorem update_option_band_atm (index : OptKey → Option NfoInstrument)
    (expiries : List PyDate) (s : RecState) (u : String) (p : Option PyVal)
    (k : Int) (s' : RecState) (calls : List WsCall)
    (hk : round_to_strike p = some k)
    (hrun : update_option_band index expiries s u p = .ok (s', calls)) :
    s'.current_atm_strike = some k := by
  simp only [update_option_band, hk] at hrun
  by_cases hc : some k = s.current_atm_strike
  · rw [if_pos hc] at hrun
    simp only [Except.ok.injEq, Prod.mk.injEq] at hrun
    rw [← hrun.1, ← hc]
  · rw [if_neg hc] at hrun
    simp only [Except.ok.injEq] at hrun
    have hs : s' = (applyReband index expiries s u k).1 := by rw [hrun]
    rw [hs]
    rfl

end Recorder

/-- C4: if two consecutive spot prices round to the same strike `k`, then
after the first is processed, processing the second issues zero
subscribe/unsubscribe calls and leaves the whole band state (reference
strike, option token set, subscriptions, symbol map) unchanged. -/
theorem band_stability (index : Recorder.OptKey → Option Recorder.NfoInstrument)
    (expiries : List PyDate) (s s1 : Recorder.RecState)
    (calls1 : List Recorder.WsCall) (p1 p2 : Option PyVal) (k : Int)
    (h1 : Recorder.round_to_strike p1 = some k)
    (h2 : Recorder.round_to_strike p2 = some k)
    (hrun : Recorder.update_option_band index expiries s "NIFTY" p1
      = .ok (s1, calls1)) :
    Recorder.update_option_band index expiries s1 "NIFTY" p2 = .ok (s1, []) := by
  have hatm : s1.current_atm_strike = some k :=
    Recorder.update_option_band_atm index expiries s "NIFTY" p1 k s1 calls1 h1 hrun
  simp only [Recorder.update_option_band, h2, hatm, if_true]

namespace Recorder

theorem flatMap_const_nil {β γ : Type} (l : List β) :
    (l.flatMap fun _ => ([] : List γ)) = [] := by
  induction l with
  | nil => rfl
  | cons x xs ih => simp [List.flatMap_cons, ih]

theorem bandResolved_noneIndex (expiries : List PyDate) (u : String) (k : Int) :
    bandResolved (fun _ => none) expiries u k = [] := by
  unfold bandResolved
  have hinner : ∀ st : Int, (["CE", "PE"].flatMap fun opt =>
      expiries.flatMap fun exp =>
        match resolve_option (fun _ => none) u st opt exp with
        | some p => [p]
        | none => []) = [] := by
    intro st
    have hexp : ∀ opt : String, (expiries.flatMap fun exp =>
        match resolve_option (fun _ => none) u st opt exp with
        | some p => [p]
        | none => []) = [] := by
      intro opt
      have : ∀ exp : PyDate, (match resolve_option (fun _ => none) u st opt exp with
          | some p => [p]
          | none => ([] : List (Int × String))) = [] := by
        intro exp
        rfl
      calc (expiries.flatMap fun exp =>
            match resolve_option (fun _ => none) u st opt exp with
            | some p => [p]
            | none => []) = expiries.flatMap fun _ => ([] : List (Int × String)) := by
              apply List.flatMap_congr
              intro exp _
              exact this exp
        _ = [] := flatMap_const_nil expiries
    calc (["CE", "PE"].flatMap fun opt =>
          expiries.flatMap fun exp =>
            match resolve_option (fun _ => none) u st opt exp with
            | some p => [p]
            | none => [])
        = ["CE", "PE"].flatMap fun _ => ([] : List (Int × String)) := by
          apply List.flatMap_congr
          intro opt _
          exact hexp opt
      _ = [] := flatMap_const_nil _
  calc (sortedTokens (bandStrikes k)).flatMap (fun st =>
        ["CE", "PE"].flatMap fun opt =>
          expiries.flatMap fun exp =>
            match resolve_option (fun _ => none) u st opt exp with
            | some p => [p]
            | none => [])
      = (sortedTokens (bandStrikes k)).flatMap fun _ => ([] : List (Int × String)) := by
        apply List.flatMap_congr
        intro st _
        exact hinner st
    _ = [] := flatMap_const_nil _

theorem applyReband_noneIndex (expiries : List PyDate) (u : String) (k : Int) :
    applyReband (fun _ => none) expiries recState0 u k
      = (⟨some k, ∅, ∅, []⟩, []) := by
  unfold applyReband
  rw [bandResolved_noneIndex]
  simp only [List.map_nil, List.toFinset_nil, List.foldl_nil, recState0,
    Finset.sdiff_self, Finset.empty_sdiff, Finset.sdiff_empty, sortedTokens_empty,
    unsubscribe_tokens, subscribe_tokens, List.filter_nil]
  rfl

/-- Spot 17482 rounds to strike 17500 with step 50. -/
theorem round_17482 : round_to_strike (some (.pyInt 17482)) = some 17500 := by
  have hc : ((17482 : Int) : Rat) / (50 : Rat) = 8741/25 := by norm_num
  have hfl : ⌊(8741/25 : Rat)⌋ = 349 := by
    rw [Int.floor_eq_iff]
    constructor <;> norm_num
  simp only [round_to_strike, pyToRat, STRIKE_STEP, pyRound, hc, hfl]
  norm_num

/-- Spot 17498 rounds to strike 17500 with step 50. -/
theorem round_17498 : round_to_strike (some (.pyInt 17498)) = some 17500 := by
  have hc : ((17498 : Int) : Rat) / (50 : Rat) = 8749/25 := by norm_num
  have hfl : ⌊(8749/25 : Rat)⌋ = 349 := by
    rw [Int.floor_eq_iff]
    constructor <;> norm_num
  simp only [round_to_strike, pyToRat, STRIKE_STEP, pyRound, hc, hfl]
  norm_num

theorem update_first_17482 :
    update_option_band (fun _ => none) [] recState0 "NIFTY"
      (some (.pyInt 17482)) = .ok (⟨some 17500, ∅, ∅, []⟩, []) := by
  simp only [update_option_band, round_17482]
  rw [if_neg (by simp [recState0])]
  rw [applyReband_noneIndex]

end Recorder

/-- C4 witness: spot 17482 then 17498, both rounding to strike 17500 (step
50): after processing the first tick, the second issues no calls and leaves
the state unchanged. -/
theorem band_stability_witness :
    Recorder.update_option_band (fun _ => none) [] ⟨some 17500, ∅, ∅, []⟩
      "NIFTY" (some (.pyInt 17498)) = .ok (⟨some 17500, ∅, ∅, []⟩, []) :=
  band_stability (fun _ => none) [] Recorder.recState0 ⟨some 17500, ∅, ∅, []⟩
    [] (some (.pyInt 17482)) (some (.pyInt 17498)) 17500
    Recorder.round_17482 Recorder.round_17498 Recorder.update_first_17482

end TickData

namespace TickData

theorem firstParsableTs_skip (pdParse : PyVal → Option PdTimestamp)
    (f : Option PyVal) (rest : List (Option PyVal))
    (hf : tsFieldFails pdParse f) :
    Recorder.firstParsableTs pdParse (f :: rest)
      = Recorder.firstParsableTs pdParse rest := by
  cases hg : getTruthy f with
  | none => simp only [Recorder.firstParsableTs, hg]
  | some v =>
    have hp := hf v hg
    simp only [Recorder.firstParsableTs, hg, hp]

theorem firstParsableTs_hit (pdParse : PyVal → Option PdTimestamp)
    (f : Option PyVal) (rest : List (Option PyVal)) (v : PyVal) (τ : PdTimestamp)
    (hg : getTruthy f = some v) (hp : pdParse v = some τ) :
    Recorder.firstParsableTs pdParse (f :: rest) = some τ := by
  simp only [Recorder.firstParsableTs, hg, hp]

theorem firstTruthyField_skip (f : Option PyVal) (rest : List (Option PyVal))
    (hg : getTruthy f = none) :
    Producer.firstTruthyField (f :: rest) = Producer.firstTruthyField rest := by
  simp only [Producer.firstTruthyField, hg]

theorem firstTruthyField_hit (f : Option PyVal) (rest : List (Option PyVal))
    (v : PyVal) (hg : getTruthy f = some v) :
    Producer.firstTruthyField (f :: rest) = some v := by
  simp only [Producer.firstTruthyField, hg]

/-- C7: for every raw tick, the normalized timestamp is resolved in the
preference order `timestamp`, then `last_trade_time`, then
`exchange_timestamp`, and the wall-clock capture time is used only when
none of the three yields a value.  A field counts as present when it holds
a truthy value (this is the code's `if t.get(k):` guard); in the recorder a
present field that `pd.to_datetime` fails to parse is skipped in favour of
the next, while the producer stringifies the first present field without
parsing. -/
theorem timestamp_resolution_order (pdParse : PyVal → Option PdTimestamp)
    (now : PdTimestamp) (nowIso : String) (t : RawTick) :
    (∀ v τ, getTruthy t.timestamp = some v → pdParse v = some τ →
      Recorder.extract_tick_ts pdParse now t = τ) ∧
    (∀ v τ, tsFieldFails pdParse t.timestamp →
      getTruthy t.last_trade_time = some v → pdParse v = some τ →
      Recorder.extract_tick_ts pdParse now t = τ) ∧
    (∀ v τ, tsFieldFails pdParse t.timestamp →
      tsFieldFails pdParse t.last_trade_time →
      getTruthy t.exchange_timestamp = some v → pdParse v = some τ →
      Recorder.extract_tick_ts pdParse now t = τ) ∧
    (tsFieldFails pdParse t.timestamp → tsFieldFails pdParse t.last_trade_time →
      tsFieldFails pdParse t.exchange_timestamp →
      Recorder.extract_tick_ts pdParse now t = now) ∧
    (∀ v, getTruthy t.timestamp = some v →
      Producer.extract_ts_from_tick nowIso t = pyStrOf v) ∧
    (∀ v, getTruthy t.timestamp = none → getTruthy t.last_trade_time = some v →
      Producer.extract_ts_from_tick nowIso t = pyStrOf v) ∧
    (∀ v, getTruthy t.timestamp = none → getTruthy t.last_trade_time = none →
      getTruthy t.exchange_timestamp = some v →
      Producer.extract_ts_from_tick nowIso t = pyStrOf v) ∧
    (getTruthy t.timestamp = none → getTruthy t.last_trade_time = none →
      getTruthy t.exchange_timestamp = none →
      Producer.extract_ts_from_tick nowIso t = nowIso) := by
  refine ⟨?_, ?_, ?_, ?_, ?_, ?_, ?_, ?_⟩
  · intro v τ hg hp
    unfold Recorder.extract_tick_ts tsFields
    rw [firstParsableTs_hit pdParse _ _ v τ hg hp]
  · intro v τ h1 hg hp
    unfold Recorder.extract_tick_ts tsFields
    rw [firstParsableTs_skip pdParse _ _ h1,
      firstParsableTs_hit pdParse _ _ v τ hg hp]
  · intro v τ h1 h2 hg hp
    unfold Recorder.extract_tick_ts tsFields
    rw [firstParsableTs_skip pdParse _ _ h1, firstParsableTs_skip pdParse _ _ h2,
      firstParsableTs_hit pdParse _ _ v τ hg hp]
  · intro h1 h2 h3
    unfold Recorder.extract_tick_ts tsFields
    rw [firstParsableTs_skip pdParse _ _ h1, firstParsableTs_skip pdParse _ _ h2,
      firstParsableTs_skip pdParse _ _ h3]
    rfl
  · intro v hg
    unfold Producer.extract_ts_from_tick tsFields
    rw [firstTruthyField_hit _ _ v hg]
  · intro v h1 hg
    unfold Producer.extract_ts_from_tick tsFields
    rw [firstTruthyField_skip _ _ h1, firstTruthyField_hit _ _ v hg]
  · intro v h1 h2 hg
    unfold Producer.extract_ts_from_tick tsFields
    rw [firstTruthyField_skip _ _ h1, firstTruthyField_skip _ _ h2,
      firstTruthyField_hit _ _ v hg]
  · intro h1 h2 h3
    unfold Producer.extract_ts_from_tick tsFields
    rw [firstTruthyField_skip _ _ h1, firstTruthyField_skip _ _ h2,
      firstTruthyField_skip _ _ h3]
    rfl

/-- C7 witness: a tick carrying an explicit `timestamp` datetime resolves to
that value in both extractors. -/
theorem timestamp_resolution_order_witness :
    Recorder.extract_tick_ts envEmpty.pdParse ts0
      { instrument_token := none, tradingsymbol := none, last_price := none,
        timestamp := some (.pyTime ⟨2026, 1, 12, 9, 20, 1, 0⟩),
        last_trade_time := none, exchange_timestamp := none }
      = ⟨2026, 1, 12, 9, 20, 1, 0⟩ ∧
    Producer.extract_ts_from_tick "NOW"
      { instrument_token := none, tradingsymbol := none, last_price := none,
        timestamp := some (.pyTime ⟨2026, 1, 12, 9, 20, 1, 0⟩),
        last_trade_time := none, exchange_timestamp := none }
      = pyStrOf (.pyTime ⟨2026, 1, 12, 9, 20, 1, 0⟩) :=
  ⟨(timestamp_resolution_order envEmpty.pdParse ts0 "NOW" _).1 _ _ rfl rfl,
   (timestamp_resolution_order envEmpty.pdParse ts0 "NOW" _).2.2.2.2.1 _ rfl⟩

end TickData

namespace TickData

namespace Recorder

theorem unsubscribe_tokens_nil (S : Finset Int) :
    unsubscribe_tokens S [] = (S, []) := rfl

end Recorder

/-- C8: on the first spot tick ever received the reference strike is unset
(`None`), so the computed strike `k` compares as different: the early return
is skipped, the band is computed and stored as the new option token set with
reference strike `k`, and (the option set being initially empty) the entire
resolved band is added to the subscriptions. -/
theorem first_spot_tick_rebands
    (index : Recorder.OptKey → Option Recorder.NfoInstrument)
    (expiries : List PyDate) (s : Recorder.RecState) (p : Option PyVal) (k : Int)
    (hnone : s.current_atm_strike = none)
    (hband : s.current_option_tokens = ∅)
    (hk : Recorder.round_to_strike p = some k) :
    Recorder.update_option_band index expiries s "NIFTY" p
      = .ok (Recorder.applyReband index expiries s "NIFTY" k) ∧
    (Recorder.applyReband index expiries s "NIFTY" k).1.current_atm_strike
      = some k ∧
    (Recorder.applyReband index expiries s "NIFTY" k).1.current_option_tokens
      = Recorder.newBandTokens index expiries "NIFTY" k ∧
    (Recorder.applyReband index expiries s "NIFTY" k).1.subscribed_tokens
      = s.subscribed_tokens ∪ Recorder.newBandTokens index expiries "NIFTY" k := by
  refine ⟨?_, rfl, rfl, ?_⟩
  · simp only [Recorder.update_option_band, hk]
    rw [if_neg (by rw [hnone]; simp)]
  · show (Recorder.subscribe_tokens
        (Recorder.unsubscribe_tokens s.subscribed_tokens
          (Recorder.sortedTokens (s.current_option_tokens
            \ Recorder.newBandTokens index expiries "NIFTY" k))).1
        (Recorder.sortedTokens (Recorder.newBandTokens index expiries "NIFTY" k
          \ s.current_option_tokens))).1
      = s.subscribed_tokens ∪ Recorder.newBandTokens index expiries "NIFTY" k
    rw [hband, Finset.empty_sdiff, Recorder.sortedTokens_empty,
      Recorder.unsubscribe_tokens_nil, Finset.sdiff_empty,
      Recorder.subscribe_tokens_fst, Recorder.sortedTokens_toFinset]

/-- C8 witness: the first spot tick at 17482 on a fresh state rebands to
strike 17500 (the band resolving to the empty set on an empty index). -/
theorem first_spot_tick_rebands_witness :
    Recorder.update_option_band (fun _ => none) exps0 Recorder.recState0 "NIFTY"
      (some (.pyInt 17482))
      = .ok (Recorder.applyReband (fun _ => none) exps0 Recorder.recState0
        "NIFTY" 17500) ∧
    (Recorder.applyReband (fun _ => none) exps0 Recorder.recState0
      "NIFTY" 17500).1.current_atm_strike = some 17500 ∧
    (Recorder.applyReband (fun _ => none) exps0 Recorder.recState0
      "NIFTY" 17500).1.current_option_tokens
      = Recorder.newBandTokens (fun _ => none) exps0 "NIFTY" 17500 ∧
    (Recorder.applyReband (fun _ => none) exps0 Recorder.recState0
      "NIFTY" 17500).1.subscribed_tokens
      = Recorder.recState0.subscribed_tokens
        ∪ Recorder.newBandTokens (fun _ => none) exps0 "NIFTY" 17500 :=
  first_spot_tick_rebands (fun _ => none) exps0 Recorder.recState0
    (some (.pyInt 17482)) 17500 rfl rfl Recorder.round_17482

end TickData

namespace TickData

namespace Recorder

end Recorder

end TickData

namespace TickData

namespace Recorder

theorem record_tick_kind (m : List (Int × OptionMeta)) (ts : PdTimestamp)
    (tok : Int) (sym kind : String) (lp : Option PyVal) :
    (record_tick m ts tok sym kind lp).kind = kind := rfl

theorem record_tick_tradingsymbol (m : List (Int × OptionMeta))
    (ts : PdTimestamp) (tok : Int) (sym kind : String) (lp : Option PyVal) :
    (record_tick m ts tok sym kind lp).tradingsymbol = sym := rfl

theorem update_option_band_isOk (index : OptKey → Option NfoInstrument)
    (expiries : List PyDate) (s : RecState) (u : String) (p : Option PyVal)
    (h : (round_to_strike p).isSome = true) :
    ∃ r, update_option_band index expiries s u p = .ok r := by
  cases hk : round_to_strike p with
  | none => rw [hk] at h; simp at h
  | some k =>
    simp only [update_option_band, hk]
    by_cases hc : some k = s.current_atm_strike
    · rw [if_pos hc]
      exact ⟨(s, []), rfl⟩
    · rw [if_neg hc]
      exact ⟨_, rfl⟩

theorem rec_on_ticks_wf (env : RecEnv) :
    ∀ (ticks : List RawTick), (∀ t ∈ ticks, wellFormedTick env t = true) →
    ∀ s : RecState,
      (rec_on_ticks env s ticks).2.2 = false ∧
      (rec_on_ticks env s ticks).2.1.map (fun row => row.kind)
        = ticks.map (fun t =>
            if tickTokenD t ∈ env.spot_tokens then "SPOT" else "OPT") := by
  intro ticks
  induction ticks with
  | nil =>
    intro _ s
    exact ⟨rfl, rfl⟩
  | cons t rest ih =>
    intro h s
    have hwt := h t (List.mem_cons_self _ _)
    have hrest := ih (fun x hx => h x (List.mem_cons_of_mem _ hx))
    cases hTok : tickToken t with
    | error e =>
      simp only [wellFormedTick, hTok, exceptOk, Bool.false_and] at hwt
      exact Bool.noConfusion hwt
    | ok tok =>
      have hD : tickTokenD t = tok := by
        simp [tickTokenD, hTok]
      simp only [wellFormedTick, hTok, exceptOk, Bool.true_and, hD] at hwt
      simp only [rec_on_ticks, hTok]
      by_cases hsp : tok ∈ env.spot_tokens
      · have hiss : (round_to_strike t.last_price).isSome = true := by
          rw [if_pos hsp] at hwt
          exact hwt
        obtain ⟨r, hr⟩ := update_option_band_isOk env.index env.expiries s
          "NIFTY" t.last_price hiss
        obtain ⟨s', calls⟩ := r
        obtain ⟨h1, h2⟩ := hrest s'
        simp only [hsp, if_true, hr]
        refine ⟨h1, ?_⟩
        simp only [List.map_cons, h2, hD, hsp, if_true, record_tick_kind]
      · obtain ⟨h1, h2⟩ := hrest s
        simp only [hsp, if_false]
        refine ⟨h1, ?_⟩
        simp only [List.map_cons, h2, hD, hsp, if_false, record_tick_kind]

end Recorder

/-- C10: for every batch of well-formed ticks, the recorder's `on_ticks`
writes exactly one row per tick, whose `kind` cell is `"SPOT"` exactly
when the tick's instrument token is in the spot-token list and `"OPT"`
otherwise; a token unknown to the symbol map and the metadata map is still
recorded (not dropped), with an empty trading symbol and empty
expiry/strike/option-type cells. -/
theorem recorder_records_every_tick (env : Recorder.RecEnv)
    (s : Recorder.RecState) (ticks : List RawTick)
    (hwf : ∀ t ∈ ticks, wellFormedTick env t = true) :
    (Recorder.rec_on_ticks env s ticks).2.2 = false ∧
    (Recorder.rec_on_ticks env s ticks).2.1.length = ticks.length ∧
    (Recorder.rec_on_ticks env s ticks).2.1.map (fun row => row.kind)
      = ticks.map (fun t =>
          if Recorder.tickTokenD t ∈ env.spot_tokens then "SPOT" else "OPT") ∧
    (∀ (t : RawTick) (tok : Int), Recorder.tickToken t = .ok tok →
      tok ∉ env.spot_tokens → lookupFirst s.token_to_sym tok = none →
      lookupFirst env.metaMap tok = none →
      ∃ row, (Recorder.rec_on_ticks env s [t]).2.1 = [row] ∧
        row.tradingsymbol = "" ∧ row.kind = "OPT" ∧ row.expiry = "" ∧
        row.strike = none ∧ row.option_type = "") := by
  obtain ⟨h1, h2⟩ := Recorder.rec_on_ticks_wf env ticks hwf s
  refine ⟨h1, ?_, h2, ?_⟩
  · have hlen := congrArg List.length h2
    simpa using hlen
  · intro t tok hTok hnsp hsym hmeta
    refine ⟨Recorder.record_tick env.metaMap
      (Recorder.extract_tick_ts env.pdParse env.now t) tok "" "OPT"
      t.last_price, ?_, ?_, ?_, ?_, ?_, ?_⟩
    · simp only [Recorder.rec_on_ticks, hTok, hnsp, if_false, hsym,
        Option.getD_none]
    · exact Recorder.record_tick_tradingsymbol _ _ _ _ _ _
    · exact Recorder.record_tick_kind _ _ _ _ _ _
    · simp [Recorder.record_tick, hmeta]
    · simp [Recorder.record_tick, hmeta]
    · simp [Recorder.record_tick, hmeta]

/-- C10 witness: a two-tick batch (spot token 100 at 17482, unknown option
token 555) in a fresh state: no crash, two rows, kinds SPOT then OPT. -/
theorem recorder_records_every_tick_witness :
    (Recorder.rec_on_ticks envEmpty Recorder.recState0 [spotTick, optTick]).2.2
      = false ∧
    (Recorder.rec_on_ticks envEmpty Recorder.recState0
      [spotTick, optTick]).2.1.length = 2 ∧
    (Recorder.rec_on_ticks envEmpty Recorder.recState0
      [spotTick, optTick]).2.1.map (fun row => row.kind) = ["SPOT", "OPT"] := by
  have h := recorder_records_every_tick envEmpty Recorder.recState0
    [spotTick, optTick] (by decide)
  refine ⟨h.1, h.2.1.trans (by decide), h.2.2.1.trans (by decide)⟩

end TickData
